import Mathlib

/-!
Shallow embedding of the Intcode instruction decoder of this repository
(`src/aoc2019rs/src/intcode/instruction.rs`).  Rust panics are modelled as
`Except DecodeError` results, the `as usize` cast as wrapping conversion
modulo `2 ^ 64`, and the parameter slice as a `List Int`.
-/

/-- The three panic sites of the decoder: slice indexing out of bounds
(`params[i]`), `panic!("Invalid parameter mode: ...")`, and
`panic!("Invalid instruction: ...")`.  Each carries the offending value. -/
inductive DecodeError where
  | indexOutOfBounds (index : Nat)
  | invalidParameterMode (mode : Nat)
  | invalidInstruction (opcode : Nat)
  deriving DecidableEq

/-- Modelled from the spec: `crate::intcode::IntcodeValue` is not under
`src/`.  Spec §3 and the uses in `instruction.rs` fix its shape: `Position`
carries a `usize` address, `Immediate` and `Relative` carry an `i64`. -/
inductive IntcodeValue where
  | Position (addr : Nat)
  | Immediate (v : Int)
  | Relative (offset : Int)
  deriving DecidableEq

/-- The `IntcodeInstruction` enum of `instruction.rs` (lines 5-16). -/
inductive IntcodeInstruction where
  | Add (x y : IntcodeValue) (position : Nat)
  | Multiply (x y : IntcodeValue) (position : Nat)
  | Input (position : Nat)
  | Output (value : IntcodeValue)
  | JumpIfTrue (test_position jump_position : IntcodeValue)
  | JumpIfFalse (test_position jump_position : IntcodeValue)
  | IsLessThan (x y : IntcodeValue) (position : Nat)
  | IsEquals (x y : IntcodeValue) (position : Nat)
  | SetRelativeBase (offset : IntcodeValue)
  | Halt
  deriving DecidableEq

/-- Rust `v as usize` on a 64-bit target: two's-complement wrapping
conversion of an `i64` into `[0, 2^64)`. -/
def as_usize (v : Int) : Nat := (v % (2 ^ 64 : Int)).toNat

/-- Fuel-based decimal digit decomposition, least-significant digit first;
`digitsAux fuel n` is the digit list of `n` whenever `n ≤ fuel`. -/
def digitsAux : Nat → Nat → List Nat
  | _, 0 => []
  | 0, _ + 1 => []
  | fuel + 1, n + 1 => (n + 1) % 10 :: digitsAux fuel ((n + 1) / 10)

/-- Modelled from the spec: `conversion::i64_into_digits` is not under
`src/`.  The spec (§4.1) prescribes decomposing `opcode_and_modes` into
decimal digits; `instruction.rs` line 22-25 reverses that list into
least-significant-first order, which is what this function returns
directly.  The two lowest digits must always exist for the opcode read at
line 27, so `0` decomposes to `[0]`. -/
def digitsLSF (m : Nat) : List Nat := if m = 0 then [0] else digitsAux m m

/-- Line 27 of `instruction.rs`:
`let opcode = digits[0] + 10 * digits.get(1).unwrap_or(&0)`. -/
def opcode_of (m : Nat) : Nat :=
  (digitsLSF m).getD 0 0 + 10 * (digitsLSF m).getD 1 0

/-- Line 29 of `instruction.rs`:
`let mode = *digits.get(param_position + 2).unwrap_or(&0)`. -/
def param_mode (m : Nat) (param_position : Nat) : Nat :=
  (digitsLSF m).getD (param_position + 2) 0

/-- Rust slice indexing `params[i]`: the value when in bounds, an
index-out-of-bounds panic otherwise. -/
def read_param (params : List Int) (i : Nat) : Except DecodeError Int :=
  match params[i]? with
  | none => .error (.indexOutOfBounds i)
  | some v => .ok v

/-- The `get_value` closure of `instruction.rs` (lines 28-36), with the
captured digit list replaced by the integer `m` it was computed from. -/
def get_value (m : Nat) (params : List Int) (param_position : Nat) :
    Except DecodeError IntcodeValue :=
  let mode := param_mode m param_position
  if mode = 0 then
    match read_param params param_position with
    | .error e => .error e
    | .ok p => .ok (.Position (as_usize p))
  else if mode = 1 then
    match read_param params param_position with
    | .error e => .error e
    | .ok p => .ok (.Immediate p)
  else if mode = 2 then
    match read_param params param_position with
    | .error e => .error e
    | .ok p => .ok (.Relative p)
  else .error (.invalidParameterMode mode)

/-- `IntcodeInstruction::new` (lines 19-91 of `instruction.rs`).  The Rust
match on the opcode becomes a chain of equality tests in source order;
each panic propagates as an `Except.error`. -/
def IntcodeInstruction.new (opcode_and_param_modes : Nat)
    (params : List Int) : Except DecodeError IntcodeInstruction :=
  let m := opcode_and_param_modes
  let opcode := opcode_of m
  if opcode = 1 then
    match get_value m params 0 with
    | .error e => .error e
    | .ok x =>
      match get_value m params 1 with
      | .error e => .error e
      | .ok y =>
        match read_param params 2 with
        | .error e => .error e
        | .ok d => .ok (.Add x y (as_usize d))
  else if opcode = 2 then
    match get_value m params 0 with
    | .error e => .error e
    | .ok x =>
      match get_value m params 1 with
      | .error e => .error e
      | .ok y =>
        match read_param params 2 with
        | .error e => .error e
        | .ok d => .ok (.Multiply x y (as_usize d))
  else if opcode = 3 then
    match read_param params 0 with
    | .error e => .error e
    | .ok d => .ok (.Input (as_usize d))
  else if opcode = 4 then
    match get_value m params 0 with
    | .error e => .error e
    | .ok v => .ok (.Output v)
  else if opcode = 5 then
    match get_value m params 0 with
    | .error e => .error e
    | .ok t =>
      match get_value m params 1 with
      | .error e => .error e
      | .ok j => .ok (.JumpIfTrue t j)
  else if opcode = 6 then
    match get_value m params 0 with
    | .error e => .error e
    | .ok t =>
      match get_value m params 1 with
      | .error e => .error e
      | .ok j => .ok (.JumpIfFalse t j)
  else if opcode = 7 then
    match get_value m params 0 with
    | .error e => .error e
    | .ok x =>
      match get_value m params 1 with
      | .error e => .error e
      | .ok y =>
        match read_param params 2 with
        | .error e => .error e
        | .ok d => .ok (.IsLessThan x y (as_usize d))
  else if opcode = 8 then
    match get_value m params 0 with
    | .error e => .error e
    | .ok x =>
      match get_value m params 1 with
      | .error e => .error e
      | .ok y =>
        match read_param params 2 with
        | .error e => .error e
        | .ok d => .ok (.IsEquals x y (as_usize d))
  else if opcode = 9 then
    match get_value m params 0 with
    | .error e => .error e
    | .ok v => .ok (.SetRelativeBase v)
  else if opcode = 99 then .ok .Halt
  else .error (.invalidInstruction opcode)

/-- Number of parameter words each opcode consumes (the fixed arity table
implicit in the indexing of `params` per match arm). -/
def arity (opcode : Nat) : Nat :=
  if opcode = 1 ∨ opcode = 2 ∨ opcode = 7 ∨ opcode = 8 then 3
  else if opcode = 5 ∨ opcode = 6 then 2
  else if opcode = 3 ∨ opcode = 4 ∨ opcode = 9 then 1
  else 0

/-- Number of leading parameters each opcode routes through `get_value`
(and whose addressing-mode digits are therefore consulted). -/
def numModeDecoded (opcode : Nat) : Nat :=
  if opcode = 1 ∨ opcode = 2 ∨ opcode = 5 ∨ opcode = 6 ∨ opcode = 7 ∨
      opcode = 8 then 2
  else if opcode = 4 ∨ opcode = 9 then 1
  else 0

/-- The write-target address stored in a decoded instruction, when the
instruction has one. -/
def IntcodeInstruction.writeTarget : IntcodeInstruction → Option Nat
  | .Add _ _ position => some position
  | .Multiply _ _ position => some position
  | .Input position => some position
  | .IsLessThan _ _ position => some position
  | .IsEquals _ _ position => some position
  | _ => none

deriving instance DecidableEq for Except

theorem digitsAux_getD :
    ∀ (fuel n k : Nat), n ≤ fuel →
      (digitsAux fuel n).getD k 0 = n / 10 ^ k % 10 := by
  intro fuel
  induction fuel with
  | zero =>
    intro n k hn
    have hn0 : n = 0 := Nat.le_zero.mp hn
    subst hn0
    simp [digitsAux]
  | succ f ih =>
    intro n k hn
    cases n with
    | zero => simp [digitsAux]
    | succ j =>
      cases k with
      | zero => simp [digitsAux]
      | succ k =>
        have h1 : (j + 1) / 10 ≤ f := by omega
        rw [show digitsAux (f + 1) (j + 1) =
              (j + 1) % 10 :: digitsAux f ((j + 1) / 10) from rfl]
        rw [List.getD_cons_succ]
        rw [ih ((j + 1) / 10) k h1]
        rw [Nat.div_div_eq_div_mul]
        congr 2
        rw [pow_succ, Nat.mul_comm]

theorem digitsLSF_getD (m k : Nat) :
    (digitsLSF m).getD k 0 = m / 10 ^ k % 10 := by
  by_cases hm : m = 0
  · subst hm
    cases k <;> simp [digitsLSF]
  · rw [digitsLSF, if_neg hm]
    exact digitsAux_getD m m k le_rfl

theorem opcode_of_eq_mod (m : Nat) : opcode_of m = m % 100 := by
  rw [opcode_of, digitsLSF_getD, digitsLSF_getD]
  simp only [pow_zero, pow_one, Nat.div_one]
  omega

theorem param_mode_eq (m k : Nat) :
    param_mode m k = m / 10 ^ (k + 2) % 10 := by
  rw [param_mode]
  exact digitsLSF_getD m (k + 2)

theorem read_param_ok_iff {p : List Int} {i : Nat} {v : Int} :
    read_param p i = .ok v ↔ p[i]? = some v := by
  unfold read_param
  cases hq : p[i]? with
  | none => simp [hq]
  | some w => simp [hq]

theorem read_param_error {p : List Int} {i : Nat} {e : DecodeError}
    (h : read_param p i = .error e) : e = .indexOutOfBounds i := by
  unfold read_param at h
  cases hq : p[i]? with
  | none => rw [hq] at h; simp at h; exact h.symm
  | some w => rw [hq] at h; simp at h

theorem read_param_lt {p : List Int} {i : Nat} {v : Int}
    (h : read_param p i = .ok v) : i < p.length := by
  rcases List.getElem?_eq_some_iff.mp (read_param_ok_iff.mp h) with ⟨hlt, _⟩
  exact hlt

theorem read_param_of_lt {p : List Int} {i : Nat} (h : i < p.length) :
    read_param p i = .ok p[i] := by
  rw [read_param_ok_iff]
  exact List.getElem?_eq_getElem h

theorem read_param_congr {p₁ p₂ : List Int} {i : Nat}
    (h : p₁[i]? = p₂[i]?) : read_param p₁ i = read_param p₂ i := by
  unfold read_param
  rw [h]

theorem get_value_congr {m : Nat} {p₁ p₂ : List Int} {k : Nat}
    (h : p₁[k]? = p₂[k]?) : get_value m p₁ k = get_value m p₂ k := by
  unfold get_value
  rw [read_param_congr h]

theorem get_value_congr_mode {m₁ m₂ : Nat} {p : List Int} {k : Nat}
    (h : param_mode m₁ k = param_mode m₂ k) :
    get_value m₁ p k = get_value m₂ p k := by
  unfold get_value
  rw [h]

theorem get_value_error_cases {m : Nat} {p : List Int} {k : Nat}
    {e : DecodeError} (h : get_value m p k = .error e) :
    e = .indexOutOfBounds k ∨ e = .invalidParameterMode (param_mode m k) := by
  simp only [get_value] at h
  split_ifs at h
  case _ =>
    cases hr : read_param p k with
    | error f => simp [hr] at h; exact .inl (h ▸ read_param_error hr)
    | ok w => simp [hr] at h
  case _ =>
    cases hr : read_param p k with
    | error f => simp [hr] at h; exact .inl (h ▸ read_param_error hr)
    | ok w => simp [hr] at h
  case _ =>
    cases hr : read_param p k with
    | error f => simp [hr] at h; exact .inl (h ▸ read_param_error hr)
    | ok w => simp [hr] at h
  case _ =>
    simp at h
    exact .inr h.symm

theorem get_value_ok_lt {m : Nat} {p : List Int} {k : Nat} {v : IntcodeValue}
    (h : get_value m p k = .ok v) : k < p.length := by
  simp only [get_value] at h
  split_ifs at h
  case _ =>
    cases hr : read_param p k with
    | error f => simp [hr] at h
    | ok w => exact read_param_lt hr
  case _ =>
    cases hr : read_param p k with
    | error f => simp [hr] at h
    | ok w => exact read_param_lt hr
  case _ =>
    cases hr : read_param p k with
    | error f => simp [hr] at h
    | ok w => exact read_param_lt hr

theorem get_value_error_of_lt {m : Nat} {p : List Int} {k : Nat}
    {e : DecodeError} (hk : k < p.length) (h : get_value m p k = .error e) :
    e = .invalidParameterMode (param_mode m k) := by
  simp only [get_value] at h
  split_ifs at h
  case _ => rw [read_param_of_lt hk] at h; simp at h
  case _ => rw [read_param_of_lt hk] at h; simp at h
  case _ => rw [read_param_of_lt hk] at h; simp at h
  case _ => simp at h; exact h.symm

theorem opcode_cases (o : Nat) :
    o = 1 ∨ o = 2 ∨ o = 3 ∨ o = 4 ∨ o = 5 ∨ o = 6 ∨ o = 7 ∨ o = 8 ∨
      o = 9 ∨ o = 99 ∨
      (o ≠ 1 ∧ o ≠ 2 ∧ o ≠ 3 ∧ o ≠ 4 ∧ o ≠ 5 ∧ o ≠ 6 ∧ o ≠ 7 ∧ o ≠ 8 ∧
        o ≠ 9 ∧ o ≠ 99) := by
  tauto

theorem new_op1 {m : Nat} (p : List Int) (h : opcode_of m = 1) :
    IntcodeInstruction.new m p =
      (match get_value m p 0 with
      | .error e => .error e
      | .ok x =>
        match get_value m p 1 with
        | .error e => .error e
        | .ok y =>
          match read_param p 2 with
          | .error e => .error e
          | .ok d => .ok (.Add x y (as_usize d))) := by
  simp only [IntcodeInstruction.new, h]
  norm_num

theorem new_op2 {m : Nat} (p : List Int) (h : opcode_of m = 2) :
    IntcodeInstruction.new m p =
      (match get_value m p 0 with
      | .error e => .error e
      | .ok x =>
        match get_value m p 1 with
        | .error e => .error e
        | .ok y =>
          match read_param p 2 with
          | .error e => .error e
          | .ok d => .ok (.Multiply x y (as_usize d))) := by
  simp only [IntcodeInstruction.new, h]
  norm_num

theorem new_op3 {m : Nat} (p : List Int) (h : opcode_of m = 3) :
    IntcodeInstruction.new m p =
      (match read_param p 0 with
      | .error e => .error e
      | .ok d => .ok (.Input (as_usize d))) := by
  simp only [IntcodeInstruction.new, h]
  norm_num

theorem new_op4 {m : Nat} (p : List Int) (h : opcode_of m = 4) :
    IntcodeInstruction.new m p =
      (match get_value m p 0 with
      | .error e => .error e
      | .ok v => .ok (.Output v)) := by
  simp only [IntcodeInstruction.new, h]
  norm_num

theorem new_op5 {m : Nat} (p : List Int) (h : opcode_of m = 5) :
    IntcodeInstruction.new m p =
      (match get_value m p 0 with
      | .error e => .error e
      | .ok t =>
        match get_value m p 1 with
        | .error e => .error e
        | .ok j => .ok (.JumpIfTrue t j)) := by
  simp only [IntcodeInstruction.new, h]
  norm_num

theorem new_op6 {m : Nat} (p : List Int) (h : opcode_of m = 6) :
    IntcodeInstruction.new m p =
      (match get_value m p 0 with
      | .error e => .error e
      | .ok t =>
        match get_value m p 1 with
        | .error e => .error e
        | .ok j => .ok (.JumpIfFalse t j)) := by
  simp only [IntcodeInstruction.new, h]
  norm_num

theorem new_op7 {m : Nat} (p : List Int) (h : opcode_of m = 7) :
    IntcodeInstruction.new m p =
      (match get_value m p 0 with
      | .error e => .error e
      | .ok x =>
        match get_value m p 1 with
        | .error e => .error e
        | .ok y =>
          match read_param p 2 with
          | .error e => .error e
          | .ok d => .ok (.IsLessThan x y (as_usize d))) := by
  simp only [IntcodeInstruction.new, h]
  norm_num

theorem new_op8 {m : Nat} (p : List Int) (h : opcode_of m = 8) :
    IntcodeInstruction.new m p =
      (match get_value m p 0 with
      | .error e => .error e
      | .ok x =>
        match get_value m p 1 with
        | .error e => .error e
        | .ok y =>
          match read_param p 2 with
          | .error e => .error e
          | .ok d => .ok (.IsEquals x y (as_usize d))) := by
  simp only [IntcodeInstruction.new, h]
  norm_num

theorem new_op9 {m : Nat} (p : List Int) (h : opcode_of m = 9) :
    IntcodeInstruction.new m p =
      (match get_value m p 0 with
      | .error e => .error e
      | .ok v => .ok (.SetRelativeBase v)) := by
  simp only [IntcodeInstruction.new, h]
  norm_num

theorem new_op99 {m : Nat} (p : List Int) (h : opcode_of m = 99) :
    IntcodeInstruction.new m p = .ok .Halt := by
  simp only [IntcodeInstruction.new, h]
  norm_num

theorem new_op_invalid {m : Nat} (p : List Int) (h1 : opcode_of m ≠ 1)
    (h2 : opcode_of m ≠ 2) (h3 : opcode_of m ≠ 3) (h4 : opcode_of m ≠ 4)
    (h5 : opcode_of m ≠ 5) (h6 : opcode_of m ≠ 6) (h7 : opcode_of m ≠ 7)
    (h8 : opcode_of m ≠ 8) (h9 : opcode_of m ≠ 9) (h10 : opcode_of m ≠ 99) :
    IntcodeInstruction.new m p = .error (.invalidInstruction (opcode_of m))
    := by
  simp only [IntcodeInstruction.new]
  rw [if_neg h1, if_neg h2, if_neg h3, if_neg h4, if_neg h5, if_neg h6,
    if_neg h7, if_neg h8, if_neg h9, if_neg h10]

theorem match3_ok_inv {m : Nat} {p : List Int}
    {F : IntcodeValue → IntcodeValue → Int → IntcodeInstruction}
    {inst : IntcodeInstruction}
    (h : (match get_value m p 0 with
      | .error e => .error e
      | .ok x =>
        match get_value m p 1 with
        | .error e => .error e
        | .ok y =>
          match read_param p 2 with
          | .error e => .error e
          | .ok d => .ok (F x y d) :
        Except DecodeError IntcodeInstruction) = .ok inst) :
    ∃ x y d, get_value m p 0 = .ok x ∧ get_value m p 1 = .ok y ∧
      read_param p 2 = .ok d ∧ inst = F x y d := by
  cases hv0 : get_value m p 0 with
  | error e => simp [hv0] at h
  | ok x =>
    cases hv1 : get_value m p 1 with
    | error e => simp [hv0, hv1] at h
    | ok y =>
      cases hr : read_param p 2 with
      | error e => simp [hv0, hv1, hr] at h
      | ok d =>
        simp only [hv0, hv1, hr] at h
        injection h with h
        exact ⟨x, y, d, rfl, rfl, rfl, h.symm⟩

theorem match2_ok_inv {m : Nat} {p : List Int}
    {F : IntcodeValue → IntcodeValue → IntcodeInstruction}
    {inst : IntcodeInstruction}
    (h : (match get_value m p 0 with
      | .error e => .error e
      | .ok t =>
        match get_value m p 1 with
        | .error e => .error e
        | .ok u => .ok (F t u) :
        Except DecodeError IntcodeInstruction) = .ok inst) :
    ∃ t u, get_value m p 0 = .ok t ∧ get_value m p 1 = .ok u ∧
      inst = F t u := by
  cases hv0 : get_value m p 0 with
  | error e => simp [hv0] at h
  | ok t =>
    cases hv1 : get_value m p 1 with
    | error e => simp [hv0, hv1] at h
    | ok u =>
      simp only [hv0, hv1] at h
      injection h with h
      exact ⟨t, u, rfl, rfl, h.symm⟩

theorem match1v_ok_inv {m : Nat} {p : List Int}
    {F : IntcodeValue → IntcodeInstruction} {inst : IntcodeInstruction}
    (h : (match get_value m p 0 with
      | .error e => .error e
      | .ok v => .ok (F v) :
        Except DecodeError IntcodeInstruction) = .ok inst) :
    ∃ v, get_value m p 0 = .ok v ∧ inst = F v := by
  cases hv0 : get_value m p 0 with
  | error e => simp [hv0] at h
  | ok v =>
    simp only [hv0] at h
    injection h with h
    exact ⟨v, rfl, h.symm⟩

theorem match1r_ok_inv {p : List Int} {F : Int → IntcodeInstruction}
    {inst : IntcodeInstruction}
    (h : (match read_param p 0 with
      | .error e => .error e
      | .ok d => .ok (F d) :
        Except DecodeError IntcodeInstruction) = .ok inst) :
    ∃ d, read_param p 0 = .ok d ∧ inst = F d := by
  cases hr : read_param p 0 with
  | error e => simp [hr] at h
  | ok d =>
    simp only [hr] at h
    injection h with h
    exact ⟨d, rfl, h.symm⟩

theorem match3_ne_idx {m : Nat} {p : List Int}
    (F : IntcodeValue → IntcodeValue → Int → IntcodeInstruction)
    (hlen : 3 ≤ p.length) (j : Nat) :
    (match get_value m p 0 with
      | .error e => .error e
      | .ok x =>
        match get_value m p 1 with
        | .error e => .error e
        | .ok y =>
          match read_param p 2 with
          | .error e => .error e
          | .ok d => .ok (F x y d) :
        Except DecodeError IntcodeInstruction) ≠
      .error (.indexOutOfBounds j) := by
  cases hv0 : get_value m p 0 with
  | error e =>
    have he := get_value_error_of_lt (show 0 < p.length by omega) hv0
    simp [hv0, he]
  | ok x =>
    cases hv1 : get_value m p 1 with
    | error e =>
      have he := get_value_error_of_lt (show 1 < p.length by omega) hv1
      simp [hv0, hv1, he]
    | ok y =>
      rw [read_param_of_lt (show 2 < p.length by omega)]
      simp [hv0, hv1]

theorem match2_ne_idx {m : Nat} {p : List Int}
    (F : IntcodeValue → IntcodeValue → IntcodeInstruction)
    (hlen : 2 ≤ p.length) (j : Nat) :
    (match get_value m p 0 with
      | .error e => .error e
      | .ok t =>
        match get_value m p 1 with
        | .error e => .error e
        | .ok u => .ok (F t u) :
        Except DecodeError IntcodeInstruction) ≠
      .error (.indexOutOfBounds j) := by
  cases hv0 : get_value m p 0 with
  | error e =>
    have he := get_value_error_of_lt (show 0 < p.length by omega) hv0
    simp [hv0, he]
  | ok t =>
    cases hv1 : get_value m p 1 with
    | error e =>
      have he := get_value_error_of_lt (show 1 < p.length by omega) hv1
      simp [hv0, hv1, he]
    | ok u => simp [hv0, hv1]

theorem match1v_ne_idx {m : Nat} {p : List Int}
    (F : IntcodeValue → IntcodeInstruction) (hlen : 1 ≤ p.length) (j : Nat) :
    (match get_value m p 0 with
      | .error e => .error e
      | .ok v => .ok (F v) :
        Except DecodeError IntcodeInstruction) ≠
      .error (.indexOutOfBounds j) := by
  cases hv0 : get_value m p 0 with
  | error e =>
    have he := get_value_error_of_lt (show 0 < p.length by omega) hv0
    simp [hv0, he]
  | ok v => simp [hv0]

theorem match1r_ne_idx {p : List Int} (F : Int → IntcodeInstruction)
    (hlen : 1 ≤ p.length) (j : Nat) :
    (match read_param p 0 with
      | .error e => .error e
      | .ok d => .ok (F d) :
        Except DecodeError IntcodeInstruction) ≠
      .error (.indexOutOfBounds j) := by
  rw [read_param_of_lt (show 0 < p.length by omega)]
  simp

theorem match3_short {m : Nat} {p : List Int}
    (F : IntcodeValue → IntcodeValue → Int → IntcodeInstruction)
    (hlen : p.length < 3) :
    ∃ e, (match get_value m p 0 with
      | .error e => .error e
      | .ok x =>
        match get_value m p 1 with
        | .error e => .error e
        | .ok y =>
          match read_param p 2 with
          | .error e => .error e
          | .ok d => .ok (F x y d) :
        Except DecodeError IntcodeInstruction) = .error e ∧
      ((∃ i, e = .indexOutOfBounds i) ∨
        ∃ md, e = .invalidParameterMode md) := by
  cases hv0 : get_value m p 0 with
  | error e =>
    refine ⟨e, by simp [hv0], ?_⟩
    rcases get_value_error_cases hv0 with h | h
    · exact .inl ⟨0, h⟩
    · exact .inr ⟨_, h⟩
  | ok x =>
    cases hv1 : get_value m p 1 with
    | error e =>
      refine ⟨e, by simp [hv0, hv1], ?_⟩
      rcases get_value_error_cases hv1 with h | h
      · exact .inl ⟨1, h⟩
      · exact .inr ⟨_, h⟩
    | ok y =>
      cases hr : read_param p 2 with
      | error e =>
        exact ⟨e, by simp [hv0, hv1, hr], .inl ⟨2, read_param_error hr⟩⟩
      | ok d =>
        have := read_param_lt hr
        omega

theorem match2_short {m : Nat} {p : List Int}
    (F : IntcodeValue → IntcodeValue → IntcodeInstruction)
    (hlen : p.length < 2) :
    ∃ e, (match get_value m p 0 with
      | .error e => .error e
      | .ok t =>
        match get_value m p 1 with
        | .error e => .error e
        | .ok u => .ok (F t u) :
        Except DecodeError IntcodeInstruction) = .error e ∧
      ((∃ i, e = .indexOutOfBounds i) ∨
        ∃ md, e = .invalidParameterMode md) := by
  cases hv0 : get_value m p 0 with
  | error e =>
    refine ⟨e, by simp [hv0], ?_⟩
    rcases get_value_error_cases hv0 with h | h
    · exact .inl ⟨0, h⟩
    · exact .inr ⟨_, h⟩
  | ok t =>
    cases hv1 : get_value m p 1 with
    | error e =>
      refine ⟨e, by simp [hv0, hv1], ?_⟩
      rcases get_value_error_cases hv1 with h | h
      · exact .inl ⟨1, h⟩
      · exact .inr ⟨_, h⟩
    | ok u =>
      have := get_value_ok_lt hv1
      omega

theorem match1v_short {m : Nat} {p : List Int}
    (F : IntcodeValue → IntcodeInstruction) (hlen : p.length < 1) :
    ∃ e, (match get_value m p 0 with
      | .error e => .error e
      | .ok v => .ok (F v) :
        Except DecodeError IntcodeInstruction) = .error e ∧
      ((∃ i, e = .indexOutOfBounds i) ∨
        ∃ md, e = .invalidParameterMode md) := by
  cases hv0 : get_value m p 0 with
  | error e =>
    refine ⟨e, by simp [hv0], ?_⟩
    rcases get_value_error_cases hv0 with h | h
    · exact .inl ⟨0, h⟩
    · exact .inr ⟨_, h⟩
  | ok v =>
    have := get_value_ok_lt hv0
    omega

theorem match1r_short {p : List Int} (F : Int → IntcodeInstruction)
    (hlen : p.length < 1) :
    ∃ e, (match read_param p 0 with
      | .error e => .error e
      | .ok d => .ok (F d) :
        Except DecodeError IntcodeInstruction) = .error e ∧
      ((∃ i, e = .indexOutOfBounds i) ∨
        ∃ md, e = .invalidParameterMode md) := by
  cases hr : read_param p 0 with
  | error e =>
    exact ⟨e, by simp [hr], .inl ⟨0, read_param_error hr⟩⟩
  | ok d =>
    have := read_param_lt hr
    omega

theorem as_usize_neg {v : Int} (h₁ : -2 ^ 63 ≤ v) (h₂ : v < 0) :
    as_usize v = (v + 2 ^ 64).toNat := by
  unfold as_usize
  congr 1
  omega

/-- Claim C3: decoding decomposes the opcode-and-modes integer into decimal
digits least-significant first: the two lowest digits form the numeric
opcode, the mode digit the decoder consults for parameter `k` is the digit
at position `k + 2`, missing higher digits default to mode `0`; and the
four quoted example decodes hold. -/
theorem c3_digit_extraction :
    (∀ m : Nat, opcode_of m = m % 100) ∧
    (∀ m k : Nat, param_mode m k = m / 10 ^ (k + 2) % 10) ∧
    IntcodeInstruction.new 1 [1, 2, 3] =
      .ok (.Add (.Position 1) (.Position 2) 3) ∧
    IntcodeInstruction.new 101 [1, 2, 3] =
      .ok (.Add (.Immediate 1) (.Position 2) 3) ∧
    IntcodeInstruction.new 1001 [1, 2, 3] =
      .ok (.Add (.Position 1) (.Immediate 2) 3) ∧
    IntcodeInstruction.new 1101 [1, 2, 3] =
      .ok (.Add (.Immediate 1) (.Immediate 2) 3) :=
  ⟨opcode_of_eq_mod, param_mode_eq, by decide, by decide, by decide,
    by decide⟩

/-- Claim C5: any opcode-and-modes value whose two lowest digits are not
one of the ten table opcodes decodes to a fatal error carrying the
offending opcode, never to an instruction. -/
theorem c5_unknown_opcode_fatal (m : Nat) (p : List Int)
    (h : opcode_of m ∉ ([1, 2, 3, 4, 5, 6, 7, 8, 9, 99] : List Nat)) :
    IntcodeInstruction.new m p =
      .error (.invalidInstruction (opcode_of m)) := by
  simp only [List.mem_cons, List.not_mem_nil, or_false, not_or] at h
  obtain ⟨h1, h2, h3, h4, h5, h6, h7, h8, h9, h10⟩ := h
  exact new_op_invalid p h1 h2 h3 h4 h5 h6 h7 h8 h9 h10

/-- Witness for C5 at the concrete opcode value `42`. -/
theorem c5_witness :
    IntcodeInstruction.new 42 [] =
      .error (.invalidInstruction (opcode_of 42)) :=
  c5_unknown_opcode_fatal 42 [] (by decide)

/-- Claim C6: whenever the two lowest digits of the opcode-and-modes value
are `99`, decoding with an empty parameter list yields `Halt`, regardless
of any leading mode digits. -/
theorem c6_halt (m : Nat) (h : opcode_of m = 99) :
    IntcodeInstruction.new m [] = .ok .Halt :=
  new_op99 [] h

/-- Witness for C6 at `4399`, which carries (even invalid) leading mode
digits above the opcode `99`. -/
theorem c6_witness : IntcodeInstruction.new 4399 [] = .ok .Halt :=
  c6_halt 4399 (by decide)

/-- Claim C8: decoding is pure and deterministic — it is modelled by a
function of `(m, p)` alone, so two successful decodes of the same
arguments agree. -/
theorem c8_deterministic (m : Nat) (p : List Int)
    (hlen : p.length = arity (opcode_of m)) (i₁ i₂ : IntcodeInstruction)
    (h₁ : IntcodeInstruction.new m p = .ok i₁)
    (h₂ : IntcodeInstruction.new m p = .ok i₂) : i₁ = i₂ := by
  rw [h₁] at h₂
  injection h₂

/-- Witness for C8 at `decode(1, [1,2,3])`. -/
theorem c8_witness :
    IntcodeInstruction.Add (.Position 1) (.Position 2) 3 =
      .Add (.Position 1) (.Position 2) 3 :=
  c8_deterministic 1 [1, 2, 3] (by decide)
    (.Add (.Position 1) (.Position 2) 3)
    (.Add (.Position 1) (.Position 2) 3) (by decide) (by decide)

/-- Claim C1 counterexample: an Immediate-mode digit on the write-target
parameter of `Add` (value `11101`, digit `1` at position 4) is NOT a fatal
decode error — decoding succeeds and stores the raw target `6`. -/
theorem c1_counterexample :
    IntcodeInstruction.new 11101 [4, 5, 6] =
      .ok (.Add (.Immediate 4) (.Immediate 5) 6) := by decide

/-- Claim C1 (amended): the write-target parameter of opcodes 1/2/3/7/8 is
not subjected to addressing-mode decoding.  Whenever decoding succeeds and
the instruction carries a write target, that target is the raw last
parameter word cast to `usize` (two's-complement wrap), whatever its mode
digit; in particular a Relative-mode digit on the target (`21101`) adds no
relative base and an Immediate-mode digit raises no error. -/
theorem c1_write_target_raw :
    (∀ (m : Nat) (p : List Int) (inst : IntcodeInstruction),
      IntcodeInstruction.new m p = .ok inst → ∀ t : Nat,
      inst.writeTarget = some t →
      ∃ raw, p[arity (opcode_of m) - 1]? = some raw ∧ t = as_usize raw) ∧
    IntcodeInstruction.new 21101 [4, 5, 6] =
      .ok (.Add (.Immediate 4) (.Immediate 5) 6) := by
  constructor
  · intro m p inst hnew t ht
    rcases opcode_cases (opcode_of m) with h1|h2|h3|h4|h5|h6|h7|h8|h9|h99|hbad
    · rw [new_op1 p h1] at hnew
      obtain ⟨x, y, d, hx, hy, hd, hinst⟩ := match3_ok_inv hnew
      subst hinst
      simp only [IntcodeInstruction.writeTarget] at ht
      injection ht with ht
      have ha : arity (opcode_of m) - 1 = 2 := by simp [arity, h1]
      rw [ha]
      exact ⟨d, read_param_ok_iff.mp hd, ht.symm⟩
    · rw [new_op2 p h2] at hnew
      obtain ⟨x, y, d, hx, hy, hd, hinst⟩ := match3_ok_inv hnew
      subst hinst
      simp only [IntcodeInstruction.writeTarget] at ht
      injection ht with ht
      have ha : arity (opcode_of m) - 1 = 2 := by simp [arity, h2]
      rw [ha]
      exact ⟨d, read_param_ok_iff.mp hd, ht.symm⟩
    · rw [new_op3 p h3] at hnew
      obtain ⟨d, hd, hinst⟩ := match1r_ok_inv hnew
      subst hinst
      simp only [IntcodeInstruction.writeTarget] at ht
      injection ht with ht
      have ha : arity (opcode_of m) - 1 = 0 := by simp [arity, h3]
      rw [ha]
      exact ⟨d, read_param_ok_iff.mp hd, ht.symm⟩
    · rw [new_op4 p h4] at hnew
      obtain ⟨v, hv, hinst⟩ := match1v_ok_inv hnew
      subst hinst
      simp [IntcodeInstruction.writeTarget] at ht
    · rw [new_op5 p h5] at hnew
      obtain ⟨a, b, ha, hb, hinst⟩ := match2_ok_inv hnew
      subst hinst
      simp [IntcodeInstruction.writeTarget] at ht
    · rw [new_op6 p h6] at hnew
      obtain ⟨a, b, ha, hb, hinst⟩ := match2_ok_inv hnew
      subst hinst
      simp [IntcodeInstruction.writeTarget] at ht
    · rw [new_op7 p h7] at hnew
      obtain ⟨x, y, d, hx, hy, hd, hinst⟩ := match3_ok_inv hnew
      subst hinst
      simp only [IntcodeInstruction.writeTarget] at ht
      injection ht with ht
      have ha : arity (opcode_of m) - 1 = 2 := by simp [arity, h7]
      rw [ha]
      exact ⟨d, read_param_ok_iff.mp hd, ht.symm⟩
    · rw [new_op8 p h8] at hnew
      obtain ⟨x, y, d, hx, hy, hd, hinst⟩ := match3_ok_inv hnew
      subst hinst
      simp only [IntcodeInstruction.writeTarget] at ht
      injection ht with ht
      have ha : arity (opcode_of m) - 1 = 2 := by simp [arity, h8]
      rw [ha]
      exact ⟨d, read_param_ok_iff.mp hd, ht.symm⟩
    · rw [new_op9 p h9] at hnew
      obtain ⟨v, hv, hinst⟩ := match1v_ok_inv hnew
      subst hinst
      simp [IntcodeInstruction.writeTarget] at ht
    · rw [new_op99 p h99] at hnew
      injection hnew with hnew
      subst hnew
      simp [IntcodeInstruction.writeTarget] at ht
    · obtain ⟨n1, n2, n3, n4, n5, n6, n7, n8, n9, n10⟩ := hbad
      rw [new_op_invalid p n1 n2 n3 n4 n5 n6 n7 n8 n9 n10] at hnew
      simp at hnew
  · decide

/-- Witness for C1 applied at `decode(1, [1,2,3])`, whose write target is
the raw third parameter `3`. -/
theorem c1_witness :
    ∃ raw, (([1, 2, 3] : List Int))[arity (opcode_of 1) - 1]? = some raw ∧
      3 = as_usize raw :=
  c1_write_target_raw.1 1 [1, 2, 3] (.Add (.Position 1) (.Position 2) 3)
    (by decide) 3 (by decide)

/-- Claim C2 counterexample: a negative Position-mode parameter is not a
fatal decode error — `decode(1, [-1, 2, 3])` succeeds, wrapping `-1` into
the address `2^64 - 1`. -/
theorem c2_counterexample :
    IntcodeInstruction.new 1 [-1, 2, 3] =
      .ok (.Add (.Position 18446744073709551615) (.Position 2) 3) := by
  decide

/-- Claim C2 (amended): the decoder performs no negativity check.  A
negative Position-mode parameter and a negative write-target parameter
(within `i64` range) are wrapped two's-complement into the unsigned
addresses `v + 2^64`, and decoding succeeds with those wrapped
addresses. -/
theorem c2_no_negative_check (x y d : Int) (hx₁ : -2 ^ 63 ≤ x)
    (hx₂ : x < 0) (hd₁ : -2 ^ 63 ≤ d) (hd₂ : d < 0) :
    IntcodeInstruction.new 1 [x, y, d] =
      .ok (.Add (.Position ((x + 2 ^ 64).toNat)) (.Position (as_usize y))
        ((d + 2 ^ 64).toNat)) := by
  have h0 : get_value 1 [x, y, d] 0 = .ok (.Position (as_usize x)) := by
    simp [get_value, show param_mode 1 0 = 0 from by decide, read_param]
  have hgv1 : get_value 1 [x, y, d] 1 = .ok (.Position (as_usize y)) := by
    simp [get_value, show param_mode 1 1 = 0 from by decide, read_param]
  have h2 : read_param [x, y, d] 2 = .ok d := by simp [read_param]
  rw [new_op1 [x, y, d] (by decide), h0, hgv1, h2,
    ← as_usize_neg hx₁ hx₂, ← as_usize_neg hd₁ hd₂]

/-- Witness for C2 at `decode(1, [-1, 2, -3])`. -/
theorem c2_witness :
    IntcodeInstruction.new 1 [-1, 2, -3] =
      .ok (.Add (.Position ((-1 + 2 ^ 64).toNat)) (.Position (as_usize 2))
        ((-3 + 2 ^ 64).toNat)) :=
  c2_no_negative_check (-1) 2 (-3) (by norm_num) (by norm_num) (by norm_num)
    (by norm_num)

/-- Claim C4 counterexample: the mode digit `3` attached to the
write-target parameter position of `Add` (value `30001`) does NOT cause a
fatal decode error — it is never consulted and decoding succeeds. -/
theorem c4_counterexample :
    IntcodeInstruction.new 30001 [1, 2, 3] =
      .ok (.Add (.Position 1) (.Position 2) 3) := by decide

/-- Claim C4 (amended): for the parameters the decoder routes through
`get_value` (the read operands), mode digit 0 yields Position, 1 yields
Immediate, 2 yields Relative, and any other digit is a fatal decode error;
mode digits attached to the write-target position (or beyond) are never
consulted, so the decode result depends only on the opcode digits and the
consulted mode digits. -/
theorem c4_mode_semantics :
    (∀ (m : Nat) (p : List Int) (k : Nat) (x : Int), p[k]? = some x →
      (param_mode m k = 0 →
        get_value m p k = .ok (.Position (as_usize x))) ∧
      (param_mode m k = 1 → get_value m p k = .ok (.Immediate x)) ∧
      (param_mode m k = 2 → get_value m p k = .ok (.Relative x)) ∧
      (2 < param_mode m k →
        get_value m p k = .error (.invalidParameterMode (param_mode m k)))) ∧
    (∀ (m₁ m₂ : Nat) (p : List Int), opcode_of m₁ = opcode_of m₂ →
      (∀ k, k < numModeDecoded (opcode_of m₁) →
        param_mode m₁ k = param_mode m₂ k) →
      IntcodeInstruction.new m₁ p = IntcodeInstruction.new m₂ p) := by
  constructor
  · intro m p k x hx
    refine ⟨?_, ?_, ?_, ?_⟩
    · intro hm
      simp [get_value, hm, read_param, hx]
    · intro hm
      simp [get_value, hm, read_param, hx]
    · intro hm
      simp [get_value, hm, read_param, hx]
    · intro hm
      simp only [get_value]
      rw [if_neg (by omega), if_neg (by omega), if_neg (by omega)]
  · intro m₁ m₂ p hop hmodes
    rcases opcode_cases (opcode_of m₁) with h1|h2|h3|h4|h5|h6|h7|h8|h9|h99|hbad
    · have h' : opcode_of m₂ = 1 := by rw [← hop]; exact h1
      have hN : numModeDecoded (opcode_of m₁) = 2 := by
        simp [numModeDecoded, h1]
      rw [new_op1 p h1, new_op1 p h',
        get_value_congr_mode (hmodes 0 (by omega)),
        get_value_congr_mode (hmodes 1 (by omega))]
    · have h' : opcode_of m₂ = 2 := by rw [← hop]; exact h2
      have hN : numModeDecoded (opcode_of m₁) = 2 := by
        simp [numModeDecoded, h2]
      rw [new_op2 p h2, new_op2 p h',
        get_value_congr_mode (hmodes 0 (by omega)),
        get_value_congr_mode (hmodes 1 (by omega))]
    · have h' : opcode_of m₂ = 3 := by rw [← hop]; exact h3
      rw [new_op3 p h3, new_op3 p h']
    · have h' : opcode_of m₂ = 4 := by rw [← hop]; exact h4
      have hN : numModeDecoded (opcode_of m₁) = 1 := by
        simp [numModeDecoded, h4]
      rw [new_op4 p h4, new_op4 p h',
        get_value_congr_mode (hmodes 0 (by omega))]
    · have h' : opcode_of m₂ = 5 := by rw [← hop]; exact h5
      have hN : numModeDecoded (opcode_of m₁) = 2 := by
        simp [numModeDecoded, h5]
      rw [new_op5 p h5, new_op5 p h',
        get_value_congr_mode (hmodes 0 (by omega)),
        get_value_congr_mode (hmodes 1 (by omega))]
    · have h' : opcode_of m₂ = 6 := by rw [← hop]; exact h6
      have hN : numModeDecoded (opcode_of m₁) = 2 := by
        simp [numModeDecoded, h6]
      rw [new_op6 p h6, new_op6 p h',
        get_value_congr_mode (hmodes 0 (by omega)),
        get_value_congr_mode (hmodes 1 (by omega))]
    · have h' : opcode_of m₂ = 7 := by rw [← hop]; exact h7
      have hN : numModeDecoded (opcode_of m₁) = 2 := by
        simp [numModeDecoded, h7]
      rw [new_op7 p h7, new_op7 p h',
        get_value_congr_mode (hmodes 0 (by omega)),
        get_value_congr_mode (hmodes 1 (by omega))]
    · have h' : opcode_of m₂ = 8 := by rw [← hop]; exact h8
      have hN : numModeDecoded (opcode_of m₁) = 2 := by
        simp [numModeDecoded, h8]
      rw [new_op8 p h8, new_op8 p h',
        get_value_congr_mode (hmodes 0 (by omega)),
        get_value_congr_mode (hmodes 1 (by omega))]
    · have h' : opcode_of m₂ = 9 := by rw [← hop]; exact h9
      have hN : numModeDecoded (opcode_of m₁) = 1 := by
        simp [numModeDecoded, h9]
      rw [new_op9 p h9, new_op9 p h',
        get_value_congr_mode (hmodes 0 (by omega))]
    · have h' : opcode_of m₂ = 99 := by rw [← hop]; exact h99
      rw [new_op99 p h99, new_op99 p h']
    · obtain ⟨n1, n2, n3, n4, n5, n6, n7, n8, n9, n10⟩ := hbad
      rw [new_op_invalid p n1 n2 n3 n4 n5 n6 n7 n8 n9 n10,
        new_op_invalid p (hop ▸ n1) (hop ▸ n2) (hop ▸ n3) (hop ▸ n4)
          (hop ▸ n5) (hop ▸ n6) (hop ▸ n7) (hop ▸ n8) (hop ▸ n9)
          (hop ▸ n10), hop]

/-- Witness for C4: mode digit 1 yields an Immediate operand for
`decode(101, [4,5,6])`, and `30001` (mode digit 3 on the write target)
decodes identically to `1`. -/
theorem c4_witness :
    get_value 101 [4, 5, 6] 0 = .ok (.Immediate 4) ∧
    IntcodeInstruction.new 30001 [1, 2, 3] =
      IntcodeInstruction.new 1 [1, 2, 3] := by
  constructor
  · exact (c4_mode_semantics.1 101 [4, 5, 6] 0 4 (by decide)).2.1 (by decide)
  · refine c4_mode_semantics.2 30001 1 [1, 2, 3] (by decide) ?_
    intro k hk
    have h2 : numModeDecoded (opcode_of 30001) = 2 := by decide
    rw [h2] at hk
    interval_cases k <;> decide

/-- Claim C9 counterexample: a too-short parameter slice does not always
abort with an index panic — for `decode(301, [])` the invalid mode digit
`3` on the first operand aborts first, with an invalid-mode panic. -/
theorem c9_counterexample :
    IntcodeInstruction.new 301 [] = .error (.invalidParameterMode 3) := by
  decide

/-- Claim C9 (amended): with at least the opcode's arity of parameters no
out-of-bounds access occurs, and a shorter slice never yields an
instruction: it aborts, with an index panic or — when an invalid mode
digit is reached first — an invalid-mode panic. -/
theorem c9_arity_bounds :
    (∀ (m : Nat) (p : List Int) (j : Nat),
      arity (opcode_of m) ≤ p.length →
      IntcodeInstruction.new m p ≠ .error (.indexOutOfBounds j)) ∧
    (∀ (m : Nat) (p : List Int), p.length < arity (opcode_of m) →
      ∃ e, IntcodeInstruction.new m p = .error e ∧
        ((∃ i, e = .indexOutOfBounds i) ∨
          ∃ md, e = .invalidParameterMode md)) := by
  constructor
  · intro m p j hlen
    rcases opcode_cases (opcode_of m) with h1|h2|h3|h4|h5|h6|h7|h8|h9|h99|hbad
    · have ha : arity (opcode_of m) = 3 := by simp [arity, h1]
      rw [new_op1 p h1]
      exact match3_ne_idx _ (by omega) j
    · have ha : arity (opcode_of m) = 3 := by simp [arity, h2]
      rw [new_op2 p h2]
      exact match3_ne_idx _ (by omega) j
    · have ha : arity (opcode_of m) = 1 := by simp [arity, h3]
      rw [new_op3 p h3]
      exact match1r_ne_idx _ (by omega) j
    · have ha : arity (opcode_of m) = 1 := by simp [arity, h4]
      rw [new_op4 p h4]
      exact match1v_ne_idx _ (by omega) j
    · have ha : arity (opcode_of m) = 2 := by simp [arity, h5]
      rw [new_op5 p h5]
      exact match2_ne_idx _ (by omega) j
    · have ha : arity (opcode_of m) = 2 := by simp [arity, h6]
      rw [new_op6 p h6]
      exact match2_ne_idx _ (by omega) j
    · have ha : arity (opcode_of m) = 3 := by simp [arity, h7]
      rw [new_op7 p h7]
      exact match3_ne_idx _ (by omega) j
    · have ha : arity (opcode_of m) = 3 := by simp [arity, h8]
      rw [new_op8 p h8]
      exact match3_ne_idx _ (by omega) j
    · have ha : arity (opcode_of m) = 1 := by simp [arity, h9]
      rw [new_op9 p h9]
      exact match1v_ne_idx _ (by omega) j
    · rw [new_op99 p h99]
      simp
    · obtain ⟨n1, n2, n3, n4, n5, n6, n7, n8, n9, n10⟩ := hbad
      rw [new_op_invalid p n1 n2 n3 n4 n5 n6 n7 n8 n9 n10]
      simp
  · intro m p hlen
    rcases opcode_cases (opcode_of m) with h1|h2|h3|h4|h5|h6|h7|h8|h9|h99|hbad
    · rw [new_op1 p h1]
      exact match3_short _ (by have := h1 ▸ hlen; simpa [arity] using this)
    · rw [new_op2 p h2]
      exact match3_short _ (by have := h2 ▸ hlen; simpa [arity] using this)
    · rw [new_op3 p h3]
      exact match1r_short _ (by have := h3 ▸ hlen; simpa [arity] using this)
    · rw [new_op4 p h4]
      exact match1v_short _ (by have := h4 ▸ hlen; simpa [arity] using this)
    · rw [new_op5 p h5]
      exact match2_short _ (by have := h5 ▸ hlen; simpa [arity] using this)
    · rw [new_op6 p h6]
      exact match2_short _ (by have := h6 ▸ hlen; simpa [arity] using this)
    · rw [new_op7 p h7]
      exact match3_short _ (by have := h7 ▸ hlen; simpa [arity] using this)
    · rw [new_op8 p h8]
      exact match3_short _ (by have := h8 ▸ hlen; simpa [arity] using this)
    · rw [new_op9 p h9]
      exact match1v_short _ (by have := h9 ▸ hlen; simpa [arity] using this)
    · have ha : arity (opcode_of m) = 0 := by simp [arity, h99]
      omega
    · obtain ⟨n1, n2, n3, n4, n5, n6, n7, n8, n9, n10⟩ := hbad
      have ha : arity (opcode_of m) = 0 := by
        simp [arity, n1, n2, n3, n4, n5, n6, n7, n8, n9]
      omega

/-- Witness for C9: a full slice for `Add` triggers no index panic, and an
empty slice for `Add` aborts with an index or invalid-mode panic. -/
theorem c9_witness :
    (IntcodeInstruction.new 1 [1, 2, 3] ≠ .error (.indexOutOfBounds 0)) ∧
    ∃ e, IntcodeInstruction.new 1 [] = .error e ∧
      ((∃ i, e = .indexOutOfBounds i) ∨
        ∃ md, e = .invalidParameterMode md) :=
  ⟨c9_arity_bounds.1 1 [1, 2, 3] 0 (by decide),
    c9_arity_bounds.2 1 [] (by decide)⟩

/-- Claim C10: the decode result depends only on the first `arity` words
of the parameter slice; trailing extra parameters never affect it. -/
theorem c10_prefix_dependence (m : Nat) (p₁ p₂ : List Int)
    (h : p₁.take (arity (opcode_of m)) = p₂.take (arity (opcode_of m))) :
    IntcodeInstruction.new m p₁ = IntcodeInstruction.new m p₂ := by
  have hg : ∀ k, k < arity (opcode_of m) → p₁[k]? = p₂[k]? := by
    intro k hk
    rw [← List.getElem?_take_of_lt (l := p₁) hk, h,
      List.getElem?_take_of_lt hk]
  rcases opcode_cases (opcode_of m) with h1|h2|h3|h4|h5|h6|h7|h8|h9|h99|hbad
  · have ha : arity (opcode_of m) = 3 := by simp [arity, h1]
    rw [new_op1 p₁ h1, new_op1 p₂ h1, get_value_congr (hg 0 (by omega)),
      get_value_congr (hg 1 (by omega)), read_param_congr (hg 2 (by omega))]
  · have ha : arity (opcode_of m) = 3 := by simp [arity, h2]
    rw [new_op2 p₁ h2, new_op2 p₂ h2, get_value_congr (hg 0 (by omega)),
      get_value_congr (hg 1 (by omega)), read_param_congr (hg 2 (by omega))]
  · have ha : arity (opcode_of m) = 1 := by simp [arity, h3]
    rw [new_op3 p₁ h3, new_op3 p₂ h3, read_param_congr (hg 0 (by omega))]
  · have ha : arity (opcode_of m) = 1 := by simp [arity, h4]
    rw [new_op4 p₁ h4, new_op4 p₂ h4, get_value_congr (hg 0 (by omega))]
  · have ha : arity (opcode_of m) = 2 := by simp [arity, h5]
    rw [new_op5 p₁ h5, new_op5 p₂ h5, get_value_congr (hg 0 (by omega)),
      get_value_congr (hg 1 (by omega))]
  · have ha : arity (opcode_of m) = 2 := by simp [arity, h6]
    rw [new_op6 p₁ h6, new_op6 p₂ h6, get_value_congr (hg 0 (by omega)),
      get_value_congr (hg 1 (by omega))]
  · have ha : arity (opcode_of m) = 3 := by simp [arity, h7]
    rw [new_op7 p₁ h7, new_op7 p₂ h7, get_value_congr (hg 0 (by omega)),
      get_value_congr (hg 1 (by omega)), read_param_congr (hg 2 (by omega))]
  · have ha : arity (opcode_of m) = 3 := by simp [arity, h8]
    rw [new_op8 p₁ h8, new_op8 p₂ h8, get_value_congr (hg 0 (by omega)),
      get_value_congr (hg 1 (by omega)), read_param_congr (hg 2 (by omega))]
  · have ha : arity (opcode_of m) = 1 := by simp [arity, h9]
    rw [new_op9 p₁ h9, new_op9 p₂ h9, get_value_congr (hg 0 (by omega))]
  · rw [new_op99 p₁ h99, new_op99 p₂ h99]
  · obtain ⟨n1, n2, n3, n4, n5, n6, n7, n8, n9, n10⟩ := hbad
    rw [new_op_invalid p₁ n1 n2 n3 n4 n5 n6 n7 n8 n9 n10,
      new_op_invalid p₂ n1 n2 n3 n4 n5 n6 n7 n8 n9 n10]

/-- Witness for C10: opcode `99` ignores any trailing parameters. -/
theorem c10_witness :
    IntcodeInstruction.new 99 [] = IntcodeInstruction.new 99 [5, 6] :=
  c10_prefix_dependence 99 [] [5, 6] (by decide)
